import Mathlib

/-
  Verification of the emulsion interactive rendering runtime.

  Shallow embedding of:
    - src/src/input_handling.rs        (keys_triggered, action_triggered, DEFAULT_BINDINGS)
    - src/subcrates/gelatin/src/application.rs
                                       (set_control_flow, aggregate_control_flow,
                                        the AboutToWait idle pass, the WindowEvent branch)
    - src/src/picture_widget.rs        (Picture, Picture::texture, Picture::upload_to_texture,
                                        PictureWidgetData::get_texture)

  Rust strings are embedded as `List Char` (the character sequence of a `&str`);
  concrete inputs are written as `"...".data`.  Time instants are embedded as `Nat`
  microsecond counts.
-/

namespace Emulsion

/-- Character sequence of a Rust `&str`. -/
abbrev Chars := List Char

/-- Modifier state as exposed by winit's `ModifiersState`: whether the alt,
ctrl and logo (super) keys are currently held. -/
structure ModifiersState where
  alt : Bool
  ctrl : Bool
  logo : Bool
deriving DecidableEq

/-- Embedding of Rust `str::split('+')`: splits the character sequence at every
`'+'`, keeping empty pieces, and always returns at least one piece. -/
def splitOnPlus : Chars → List Chars
  | [] => [[]]
  | c :: rest =>
    match splitOnPlus rest with
    | [] => [[]]
    | t :: ts => if c = '+' then [] :: t :: ts else (c :: t) :: ts

/-- ASCII whitespace test used to embed Rust `str::trim` (all chords and key
names in this program are ASCII). -/
def isWs (c : Char) : Bool := c = ' ' || c = '\t' || c = '\n' || c = '\r'

/-- Embedding of Rust `str::trim`: drops leading and trailing whitespace. -/
def trimChars (s : Chars) : Chars :=
  ((s.dropWhile isWs).reverse.dropWhile isWs).reverse

/-- Embedding of Rust `str::to_lowercase` on the ASCII range (all chords and
key names in this program are ASCII). -/
def lowerChars (s : Chars) : Chars := s.map Char.toLower

/-- The token list of a chord: `complex_key.split('+').map(|s| s.trim().to_lowercase())`
(input_handling.rs line 120). -/
def chordParts (chord : Chars) : List Chars :=
  (splitOnPlus chord).map (fun s => lowerChars (trimChars s))

/-- The modifier set named by a chord's tokens before the last one, computed by
the `has_alt`/`has_ctrl`/`has_logo` loop of input_handling.rs lines 128-145.
`macos` embeds `cfg!(target_os = "macos")`, which decides what the `cmdctrl`
token means; unrecognised tokens are ignored. -/
def chordMods (macos : Bool) (parts : List Chars) : ModifiersState :=
  (parts.take (parts.length - 1)).foldl
    (fun ms tok =>
      if tok = "alt".data then { ms with alt := true }
      else if tok = "ctrl".data then { ms with ctrl := true }
      else if tok = "logo".data then { ms with logo := true }
      else if tok = "cmdctrl".data then
        (if macos then { ms with logo := true } else { ms with ctrl := true })
      else ms)
    ⟨false, false, false⟩

/-- Embedding of `keys_triggered` (input_handling.rs lines 113-154): scan the
chord list in order; a chord fires when the pressed key equals the chord's
final (trimmed, lowercased) token and the chord's modifier set equals the held
modifier set exactly.  The `parts.getLast? = none` branch embeds the
`parts.last().unwrap()` call, which is unreachable because `split` never
returns an empty iterator. -/
def keys_triggered (macos : Bool) (keys : List Chars) (input_key : Chars)
    (modifiers : ModifiersState) : Bool :=
  match keys with
  | [] => false
  | key :: rest =>
    let parts := chordParts key
    if parts.isEmpty then keys_triggered macos rest input_key modifiers
    else
      match parts.getLast? with
      | none => keys_triggered macos rest input_key modifiers
      | some k =>
        if input_key ≠ k then keys_triggered macos rest input_key modifiers
        else if chordMods macos parts = modifiers then true
        else keys_triggered macos rest input_key modifiers

/-- The built-in `DEFAULT_BINDINGS` table (input_handling.rs lines 34-54),
embedded as an association list. -/
def DEFAULT_BINDINGS : List (Chars × List Chars) :=
  [ ("toggle_fullscreen".data, ["F11".data, "Return".data])
  , ("escape".data, ["Escape".data, "Q".data])
  , ("img_next".data, ["D".data, "Right".data, "PageDown".data])
  , ("img_prev".data, ["A".data, "Left".data, "PageUp".data])
  , ("img_orig".data, ["1".data])
  , ("img_fit".data, ["F".data])
  , ("img_fit_best".data, ["E".data])
  , ("img_del".data, ["Delete".data])
  , ("img_copy".data, ["CmdCtrl+C".data])
  , ("pan".data, ["Space".data])
  , ("play_anim".data, ["Alt+A".data, "Alt+V".data])
  , ("play_present".data, ["P".data])
  , ("play_present_rnd".data, ["Alt+P".data])
  , ("toggle_antialias".data, ["S".data])
  , ("automatic_antialias".data, ["Alt+S".data])
  ]

/-- Embedding of `action_triggered` (input_handling.rs lines 156-171),
parametrised by the default table so that theorems can quantify over it.
`bindings` embeds `config.bindings` (`Option` of the user table); the
`HashMap` lookups are embedded as association-list lookups. -/
def action_triggered_with (macos : Bool) (defaults : List (Chars × List Chars))
    (bindings : Option (List (Chars × List Chars))) (action_name input_key : Chars)
    (modifiers : ModifiersState) : Bool :=
  match bindings.map (fun b => b.lookup action_name) with
  | some (some keys) => keys_triggered macos keys input_key modifiers
  | _ => keys_triggered macos ((defaults.lookup action_name).getD []) input_key modifiers

/-- `action_triggered` with the built-in `DEFAULT_BINDINGS` table, exactly as
in the source. -/
def action_triggered (macos : Bool) (bindings : Option (List (Chars × List Chars)))
    (action_name input_key : Chars) (modifiers : ModifiersState) : Bool :=
  action_triggered_with macos DEFAULT_BINDINGS bindings action_name input_key modifiers

/-- Embedding of winit's `ControlFlow` as used by application.rs: `poll` is
"wake as soon as possible", `wait` is "wait indefinitely", `waitUntil t` is
"wait until instant `t`".  Instants are microsecond counts. -/
inductive ControlFlow where
  | poll
  | wait
  | waitUntil (t : Nat)
deriving DecidableEq

/-- Embeds `matches!(control_flow, ControlFlow::WaitUntil(_))`. -/
def ControlFlow.isWaitUntil : ControlFlow → Bool
  | .waitUntil _ => true
  | _ => false

/-- Embedding of `set_control_flow` (application.rs lines 23-34): a
`WaitUntil` target strictly less than 100 microseconds after `now`
(`Instant::now() + Duration::from_micros(100)`) is replaced by `Poll`;
everything else is passed through unchanged.  `now` embeds `Instant::now()`. -/
def set_control_flow (now : Nat) : ControlFlow → ControlFlow
  | .waitUntil time =>
    if time < now + 100 then ControlFlow.poll else ControlFlow.waitUntil time
  | c => c

/-- Embedding of `aggregate_control_flow` (application.rs lines 37-60).  The
event loop's current control flow is the `original` argument; the result is
the new control flow state paired with the returned `bool` ("original was
replaced by new"). -/
def aggregate_control_flow (now : Nat) (original new : ControlFlow) :
    ControlFlow × Bool :=
  match new with
  | .poll => (set_control_flow now ControlFlow.poll, true)
  | .waitUntil new_time =>
    match original with
    | .waitUntil orig_time =>
      if new_time < orig_time then (set_control_flow now (ControlFlow.waitUntil new_time), true)
      else (original, false)
    | .wait => (set_control_flow now (ControlFlow.waitUntil new_time), true)
    | _ => (original, false)
  | _ => (original, false)

/-- One aggregation pass: fold `aggregate_control_flow` over the wake requests
submitted during the pass (the loop over `global_handlers` in
application.rs lines 134-137, starting from the current control flow state). -/
def aggregatePass (now : Nat) (init : ControlFlow) (reqs : List ControlFlow) :
    ControlFlow :=
  reqs.foldl (fun s r => (aggregate_control_flow now s r).1) init

/-- Modelled from the spec: the total order on wake requests in which "as soon
as possible" (`poll`) dominates any timestamp, among timestamps the earliest
dominates, and "none" (`wait`) is least urgent.  `urgencyLE a b` means `a` is
at least as urgent as `b`. -/
def urgencyLE : ControlFlow → ControlFlow → Bool
  | .poll, _ => true
  | .waitUntil _, .poll => false
  | .waitUntil a, .waitUntil b => Nat.ble a b
  | .waitUntil _, .wait => true
  | .wait, .wait => true
  | .wait, _ => false

/-- Modelled from the spec: the more urgent of two wake requests under
`urgencyLE`. -/
def specMoreUrgent (a b : ControlFlow) : ControlFlow :=
  if urgencyLE a b then a else b

/-- Modelled from the spec: the most urgent request of a submitted multiset
("none"/`wait` when the multiset is empty). -/
def specMostUrgent (reqs : List ControlFlow) : ControlFlow :=
  reqs.foldl specMoreUrgent ControlFlow.wait

/-- Per-window flags consulted by the idle pass: `window.should_sleep()` and
`window.redraw_needed()`. -/
structure IdleWindow where
  shouldSleep : Bool
  redrawNeeded : Bool
deriving DecidableEq

/-- One step of the window loop of the idle pass (application.rs lines
171-179): `should_sleep = should_sleep && window.should_sleep()`, then a
window needing a redraw forces `should_sleep = false` (and has its redraw
requested, a side effect towards the OS not visible in the returned flag). -/
def idlePassStep (should_sleep : Bool) (w : IdleWindow) : Bool :=
  let s := should_sleep && w.shouldSleep
  if w.redrawNeeded then false else s

/-- Embedding of the `Event::AboutToWait` branch (application.rs lines
166-186): if exit was requested the loop exits (`none`); otherwise, when every
window agrees to sleep and none needs a redraw, the control flow is set to
`Wait` unless it currently is a `WaitUntil`; in every other case the control
flow is left unchanged.  Returns the resulting control flow, or `none` for
loop exit. -/
def aboutToWait (exitRequested : Bool) (control_flow : ControlFlow)
    (ws : List IdleWindow) : Option ControlFlow :=
  if exitRequested then none
  else
    let should_sleep := ws.foldl idlePassStep true
    if should_sleep && !control_flow.isWaitUntil then some ControlFlow.wait
    else some control_flow

/-- Window events relevant to the `Event::WindowEvent` branch. -/
inductive WEvent where
  | redrawRequested
  | closeRequested
  | destroyed
  | other
deriving DecidableEq

/-- Association-list update, used to embed forwarding an event to the window
stored in the registry `HashMap`. -/
def updateAssoc (reg : List (Nat × List WEvent)) (wid : Nat) (log : List WEvent) :
    List (Nat × List WEvent) :=
  reg.map (fun p => if p.1 = wid then (p.1, log) else p)

/-- Association-list removal, embedding `windows.remove(&window_id)`. -/
def removeAssoc (reg : List (Nat × List WEvent)) (wid : Nat) :
    List (Nat × List WEvent) :=
  reg.filter (fun p => p.1 ≠ wid)

/-- Embedding of the `Event::WindowEvent` branch (application.rs lines
143-165) acting on a window registry.  Windows are embedded as the list of
events forwarded to them so far; `windows.get(&window_id).unwrap()` is a loud
failure (`Except.error`) when the id is not tracked.  On success the result is
the new registry, the new exit flag (`CloseRequested` calls `request_exit`),
and the forwarding trace of this step: the `Destroyed` event is forwarded to
the window first (`process_event`) and only then is the window removed. -/
def processWindowEvent (reg : List (Nat × List WEvent)) (exitFlag : Bool)
    (wid : Nat) (ev : WEvent) :
    Except Chars (List (Nat × List WEvent) × Bool × List (Nat × WEvent)) :=
  match reg.lookup wid with
  | none => Except.error "called Option::unwrap on a None value".data
  | some log =>
    let exitFlag := exitFlag || ev = WEvent.closeRequested
    let destroyed := ev = WEvent.destroyed
    let reg := updateAssoc reg wid (log ++ [ev])
    Except.ok (if destroyed then removeAssoc reg wid else reg, exitFlag, [(wid, ev)])

/-- Two-state picture resource (picture_widget.rs lines 23-26):
`loadRequested path` is the pending state, `ready handle` is the resident
state; `H` is the type of the reference-counted GPU texture handle. -/
inductive Picture (H : Type) where
  | loadRequested (path : Chars)
  | ready (handle : H)
deriving DecidableEq

/-- Result of `Picture::texture`: a handle, a propagated decode error, or the
`unreachable!()` panic. -/
inductive TexResult (H E : Type) where
  | ok (handle : H)
  | err (e : E)
  | panic
deriving DecidableEq

/-- Embedding of `Picture::upload_to_texture` (picture_widget.rs lines 36-52).
`decode` embeds `image::open` composed with `into_rgba`, `upload` embeds
`cpu_to_texture` wrapped in `Rc::new`.  `self` is first swapped with
`LoadRequested("")`; in the pending case the decoder runs once, and a decode
error leaves that swapped-in state behind (the `?` operator); in the ready
case the texture is moved back.  Returns the call result, the state left in
`self`, and the number of decoder invocations. -/
def upload_to_texture {I H E : Type} (decode : Chars → Except E I) (upload : I → H) :
    Picture H → Except E Unit × Picture H × Nat
  | .loadRequested path =>
    match decode path with
    | .error e => (Except.error e, Picture.loadRequested "".data, 1)
    | .ok img => (Except.ok (), Picture.ready (upload img), 1)
  | .ready texture => (Except.ok (), Picture.ready texture, 0)

/-- Embedding of `Picture::texture` (picture_widget.rs lines 28-35): call
`upload_to_texture`, then clone the handle out of the `Ready` state; the
non-`Ready` case after a successful upload is the `unreachable!()` panic. -/
def Picture.texture {I H E : Type} (decode : Chars → Except E I) (upload : I → H)
    (p : Picture H) : TexResult H E × Picture H × Nat :=
  match upload_to_texture decode upload p with
  | (Except.error e, p', n) => (TexResult.err e, p', n)
  | (Except.ok (), p', n) =>
    match p' with
    | .ready texture => (TexResult.ok texture, Picture.ready texture, n)
    | .loadRequested q => (TexResult.panic, Picture.loadRequested q, n)

/-- Result of `PictureWidgetData::get_texture`: `ok` with the optional handle,
or the (unreachable) panic propagated from `Picture::texture`. -/
inductive GetTexResult (H : Type) where
  | ok (t : Option H)
  | panic
deriving DecidableEq

/-- Embedding of `PictureWidgetData::get_texture` (picture_widget.rs lines
139-152) acting on the widget's `image_texture` field: when a picture is
present its texture is resolved; on a decode error the field is cleared to
`None`, the error is printed, and `None` is returned.  Returns the call
result, the new `image_texture` field, and the number of decoder
invocations. -/
def get_texture {I H E : Type} (decode : Chars → Except E I) (upload : I → H)
    (image_texture : Option (Picture H)) :
    GetTexResult H × Option (Picture H) × Nat :=
  match image_texture with
  | some tex =>
    match Picture.texture decode upload tex with
    | (TexResult.ok img, p', n) => (GetTexResult.ok (some img), some p', n)
    | (TexResult.err _, _, n) => (GetTexResult.ok none, none, n)
    | (TexResult.panic, p', n) => (GetTexResult.panic, some p', n)
  | none => (GetTexResult.ok none, none, 0)

/-! ### Helper lemmas -/

/-- An empty chord list never triggers. -/
theorem keys_triggered_nil (macos : Bool) (input : Chars) (m : ModifiersState) :
    keys_triggered macos [] input m = false := rfl

/-- The result of `keys_triggered` depends on each chord only through its
parsed token list `chordParts`. -/
theorem keys_triggered_congr (macos : Bool) (input : Chars) (m : ModifiersState) :
    ∀ ks ks' : List Chars, ks.map chordParts = ks'.map chordParts →
      keys_triggered macos ks input m = keys_triggered macos ks' input m := by
  intro ks
  induction ks with
  | nil =>
    intro ks' h
    cases ks' with
    | nil => rfl
    | cons b bs => simp at h
  | cons a as ih =>
    intro ks' h
    cases ks' with
    | nil => simp at h
    | cons b bs =>
      simp only [List.map_cons, List.cons.injEq] at h
      obtain ⟨h1, h2⟩ := h
      simp only [keys_triggered, h1]
      rw [ih bs h2]

/-! ### Claim theorems -/

/-- Claim C1: for every chord string, pressed key and held modifier state,
`keys_triggered` reports a match for that chord iff the chord's final
(trimmed, lowercased) token equals the pressed key and the modifier set named
by the chord's preceding tokens is exactly the held modifier set; in
particular `"Ctrl+S"` matches pressed key `"s"` with held set {ctrl} and does
not match with held set {ctrl, alt}. -/
theorem keys_triggered_exact_match (macos : Bool) (c input : Chars)
    (m : ModifiersState) :
    (keys_triggered macos [c] input m = true ↔
      ((chordParts c).getLast? = some input ∧ chordMods macos (chordParts c) = m)) ∧
    keys_triggered macos ["Ctrl+S".data] "s".data ⟨false, true, false⟩ = true ∧
    keys_triggered macos ["Ctrl+S".data] "s".data ⟨true, true, false⟩ = false := by
  refine ⟨?_, by cases macos <;> decide, by cases macos <;> decide⟩
  cases hp : chordParts c with
  | nil => simp [keys_triggered, hp]
  | cons a as =>
    obtain ⟨k, hk0⟩ : ∃ k, (a :: as).getLast? = some k :=
      ⟨(a :: as).getLast (by simp), List.getLast?_eq_getLast _ _⟩
    simp only [keys_triggered, hp, List.isEmpty_cons, hk0]
    by_cases hk : input = k
    · subst hk
      by_cases hm : chordMods macos (a :: as) = m
      · simp [hm]
      · simp [hm]
    · have hk' : ¬(k = input) := fun h => hk h.symm
      simp [hk, hk']

/-- Claim C2 (counterexample): the chord list `["s"]` matches the pressed key
`"s"` but not the pressed key `"S"` under the same (empty) modifier state, so
changing only the letter case of the pressed key changes the result. -/
theorem pressed_key_case_sensitive :
    keys_triggered false ["s".data] "s".data ⟨false, false, false⟩ = true ∧
    keys_triggered false ["s".data] "S".data ⟨false, false, false⟩ = false := by
  decide

/-- Claim C2 (amended): chord strings are parsed by splitting on `'+'` with
whitespace trimmed and each token lowercased, and `keys_triggered` depends on
each chord only through that parsed token list — so chords that differ in
letter case or whitespace around `'+'` behave identically, as the chords
`"Ctrl+S"` and `" cTRL + s "` do — while the pressed key is compared verbatim
against the lowercased final token. -/
theorem chord_case_insensitive (macos : Bool) (ks ks' : List Chars)
    (input : Chars) (m : ModifiersState) :
    (ks.map chordParts = ks'.map chordParts →
      keys_triggered macos ks input m = keys_triggered macos ks' input m) ∧
    keys_triggered macos ["Ctrl+S".data] input m =
      keys_triggered macos [" cTRL + s ".data] input m := by
  constructor
  · exact keys_triggered_congr macos input m ks ks'
  · exact keys_triggered_congr macos input m _ _ (by decide)

/-- Claim C2 (witness for the amended theorem). -/
theorem chord_case_insensitive_witness :
    (["Ctrl+S".data].map chordParts = ["ctrl+s".data].map chordParts) ∧
    keys_triggered false ["Ctrl+S".data] "s".data ⟨false, true, false⟩ =
      keys_triggered false ["ctrl+s".data] "s".data ⟨false, true, false⟩ :=
  ⟨by decide,
   (chord_case_insensitive false ["Ctrl+S".data] ["ctrl+s".data] "s".data
      ⟨false, true, false⟩).1 (by decide)⟩

/-- Claim C7: `action_triggered` consults the user binding table first; when
the action name is absent from the user table, or no user table exists, it
falls back to the default table's chord list for that name; a name present in
neither table yields `false` for every key and modifier state. -/
theorem action_fallback (macos : Bool) (b : List (Chars × List Chars))
    (name input : Chars) (m : ModifiersState) :
    (action_triggered macos none name input m =
      keys_triggered macos ((DEFAULT_BINDINGS.lookup name).getD []) input m) ∧
    (b.lookup name = none →
      action_triggered macos (some b) name input m =
        keys_triggered macos ((DEFAULT_BINDINGS.lookup name).getD []) input m) ∧
    (∀ ks, b.lookup name = none → DEFAULT_BINDINGS.lookup name = some ks →
      action_triggered macos (some b) name input m =
        keys_triggered macos ks input m) ∧
    (b.lookup name = none → DEFAULT_BINDINGS.lookup name = none →
      action_triggered macos (some b) name input m = false) ∧
    (DEFAULT_BINDINGS.lookup name = none →
      action_triggered macos none name input m = false) := by
  refine ⟨rfl, ?_, ?_, ?_, ?_⟩
  · intro hb
    simp [action_triggered, action_triggered_with, hb]
  · intro ks hb hd
    simp [action_triggered, action_triggered_with, hb, hd]
  · intro hb hd
    simp [action_triggered, action_triggered_with, hb, hd, keys_triggered_nil]
  · intro hd
    simp [action_triggered, action_triggered_with, hd, keys_triggered_nil]

/-- Claim C7 (witness): the action `"img_next"` is absent from the non-empty
user table `[("foo", ["X"])]` and present in the default table, so the default
chord list decides the result (here: pressed key `"d"`, no modifiers, fires);
the action `"nonexistent"` is present in neither table and yields `false`. -/
theorem action_fallback_witness :
    (([("foo".data, ["X".data])] : List (Chars × List Chars)).lookup "img_next".data = none) ∧
    action_triggered false (some [("foo".data, ["X".data])]) "img_next".data "d".data
      ⟨false, false, false⟩ =
      keys_triggered false ((DEFAULT_BINDINGS.lookup "img_next".data).getD []) "d".data
        ⟨false, false, false⟩ ∧
    action_triggered false (some [("foo".data, ["X".data])]) "nonexistent".data "d".data
      ⟨false, false, false⟩ = false :=
  ⟨by decide,
   (action_fallback false [("foo".data, ["X".data])] "img_next".data "d".data
      ⟨false, false, false⟩).2.1 (by decide),
   (action_fallback false [("foo".data, ["X".data])] "nonexistent".data "d".data
      ⟨false, false, false⟩).2.2.2.1 (by decide) (by decide)⟩

/-- Claim C10: a user binding table that maps an action name to an empty chord
list makes `action_triggered` return `false` for that action for every pressed
key and modifier state, whatever the default table contains — the empty user
override shadows the default instead of falling back to it. -/
theorem empty_override_shadows (macos : Bool)
    (defaults b : List (Chars × List Chars)) (name input : Chars)
    (m : ModifiersState) (h : b.lookup name = some []) :
    action_triggered_with macos defaults (some b) name input m = false := by
  simp [action_triggered_with, h, keys_triggered_nil]

/-- Claim C10 (witness): a user table mapping `"img_next"` to `[]` suppresses
the default `"img_next"` bindings (the default table would have fired on
pressed key `"d"`). -/
theorem empty_override_shadows_witness :
    (([("img_next".data, [])] : List (Chars × List Chars)).lookup "img_next".data
      = some []) ∧
    action_triggered_with false DEFAULT_BINDINGS (some [("img_next".data, [])])
      "img_next".data "d".data ⟨false, false, false⟩ = false ∧
    keys_triggered false ((DEFAULT_BINDINGS.lookup "img_next".data).getD []) "d".data
      ⟨false, false, false⟩ = true :=
  ⟨by decide,
   empty_override_shadows false DEFAULT_BINDINGS [("img_next".data, [])]
     "img_next".data "d".data ⟨false, false, false⟩ (by decide),
   by decide⟩

/-- Folding `specMoreUrgent` is insensitive to the order of its right-hand
arguments (it is the minimum of a total urgency order). -/
instance : RightCommutative specMoreUrgent := by
  constructor
  intro b a1 a2
  cases b <;> cases a1 <;> cases a2 <;>
    simp only [specMoreUrgent, urgencyLE] <;>
    split_ifs <;>
    simp_all [Nat.ble_eq] <;>
    omega

/-- One aggregation step starting from a normalized state equals normalizing
the spec-side more-urgent combination. -/
theorem aggregate_step_eq (now : Nat) (m r : ControlFlow) :
    (aggregate_control_flow now (set_control_flow now m) r).1 =
      set_control_flow now (specMoreUrgent m r) := by
  cases m with
  | poll => cases r <;> rfl
  | wait => cases r <;> rfl
  | waitUntil ot =>
    cases r with
    | poll => rfl
    | wait => rfl
    | waitUntil nt =>
      by_cases h : ot < now + 100
      · have hs : set_control_flow now (ControlFlow.waitUntil ot) = ControlFlow.poll := by
          simp [set_control_flow, h]
        rw [hs]
        by_cases hble : ot ≤ nt
        · have hmin : specMoreUrgent (ControlFlow.waitUntil ot) (ControlFlow.waitUntil nt) =
              ControlFlow.waitUntil ot := by
            simp [specMoreUrgent, urgencyLE, Nat.ble_eq, hble]
          rw [hmin, hs]
          rfl
        · have hmin : specMoreUrgent (ControlFlow.waitUntil ot) (ControlFlow.waitUntil nt) =
              ControlFlow.waitUntil nt := by
            simp [specMoreUrgent, urgencyLE, Nat.ble_eq, hble]
          rw [hmin]
          have hnt : nt < now + 100 := by omega
          simp [aggregate_control_flow, set_control_flow, hnt]
      · have hs : set_control_flow now (ControlFlow.waitUntil ot) =
            ControlFlow.waitUntil ot := by
          simp [set_control_flow, h]
        rw [hs]
        by_cases hble : ot ≤ nt
        · have hmin : specMoreUrgent (ControlFlow.waitUntil ot) (ControlFlow.waitUntil nt) =
              ControlFlow.waitUntil ot := by
            simp [specMoreUrgent, urgencyLE, Nat.ble_eq, hble]
          rw [hmin, hs]
          simp [aggregate_control_flow, Nat.not_lt.mpr hble]
        · have hmin : specMoreUrgent (ControlFlow.waitUntil ot) (ControlFlow.waitUntil nt) =
              ControlFlow.waitUntil nt := by
            simp [specMoreUrgent, urgencyLE, Nat.ble_eq, hble]
          rw [hmin]
          have hlt : nt < ot := Nat.not_le.mp hble
          simp [aggregate_control_flow, hlt]

/-- A whole aggregation pass starting from a normalized state computes the
normalized spec-side fold. -/
theorem aggregatePass_eq (now : Nat) :
    ∀ (l : List ControlFlow) (m : ControlFlow),
      aggregatePass now (set_control_flow now m) l =
        set_control_flow now (l.foldl specMoreUrgent m) := by
  intro l
  induction l with
  | nil => intro m; rfl
  | cons r t ih =>
    intro m
    show aggregatePass now ((aggregate_control_flow now (set_control_flow now m) r).1) t =
      set_control_flow now ((r :: t).foldl specMoreUrgent m)
    rw [aggregate_step_eq, List.foldl_cons]
    exact ih (specMoreUrgent m r)

/-- Claim C3 (counterexample): a single submitted request "wait until 50µs"
aggregated from the neutral "wait indefinitely" state yields `Poll`, not the
most urgent submitted request "wait until 50µs" — the near-future clamp of
`set_control_flow` fires during aggregation. -/
theorem aggregate_clamp_counterexample :
    aggregatePass 0 ControlFlow.wait [ControlFlow.waitUntil 50] = ControlFlow.poll ∧
    specMostUrgent [ControlFlow.waitUntil 50] = ControlFlow.waitUntil 50 ∧
    ControlFlow.poll ≠ ControlFlow.waitUntil 50 := by decide

/-- Claim C3 (amended): aggregating any multiset of wake requests submitted
during one pass yields the `set_control_flow`-normalization of the most urgent
one — identical to the most urgent one except that a "wait until T" less than
100µs in the future becomes `Poll` — under the total order where "as soon as
possible" dominates any timestamp and among timestamps the earliest dominates;
the result is independent of submission order, and aggregating a request that
is no more urgent than the current target never changes the target. -/
theorem aggregate_most_urgent (now : Nat) (l l' : List ControlFlow)
    (hp : l.Perm l') :
    aggregatePass now ControlFlow.wait l = set_control_flow now (specMostUrgent l) ∧
    aggregatePass now ControlFlow.wait l = aggregatePass now ControlFlow.wait l' ∧
    (∀ s r : ControlFlow, urgencyLE s r = true →
      (aggregate_control_flow now s r).1 = s) := by
  have key : ∀ ll : List ControlFlow,
      aggregatePass now ControlFlow.wait ll = set_control_flow now (specMostUrgent ll) := by
    intro ll
    have h0 : ControlFlow.wait = set_control_flow now ControlFlow.wait := rfl
    calc aggregatePass now ControlFlow.wait ll
        = aggregatePass now (set_control_flow now ControlFlow.wait) ll := by rw [← h0]
      _ = set_control_flow now (ll.foldl specMoreUrgent ControlFlow.wait) :=
          aggregatePass_eq now ll ControlFlow.wait
      _ = set_control_flow now (specMostUrgent ll) := rfl
  refine ⟨key l, ?_, ?_⟩
  · rw [key l, key l']
    have : specMostUrgent l = specMostUrgent l' := hp.foldl_eq ControlFlow.wait
    rw [this]
  · intro s r hle
    cases s with
    | poll => cases r <;> rfl
    | wait =>
      cases r with
      | poll => simp [urgencyLE] at hle
      | wait => rfl
      | waitUntil nt => simp [urgencyLE] at hle
    | waitUntil ot =>
      cases r with
      | poll => simp [urgencyLE] at hle
      | wait => rfl
      | waitUntil nt =>
        have hot : ot ≤ nt := by simpa [urgencyLE, Nat.ble_eq] using hle
        simp [aggregate_control_flow, Nat.not_lt.mpr hot]

/-- Claim C3 (witness): the pass "wait until 50ms", "none", "wait until 10ms"
(microsecond instants, `now = 0`) aggregates to "wait until 10ms" in any
submission order, and a pass containing "as soon as possible" aggregates to
"as soon as possible". -/
theorem aggregate_most_urgent_witness :
    aggregatePass 0 ControlFlow.wait
        [ControlFlow.waitUntil 50000, ControlFlow.wait, ControlFlow.waitUntil 10000] =
      ControlFlow.waitUntil 10000 ∧
    aggregatePass 0 ControlFlow.wait
        [ControlFlow.waitUntil 50000, ControlFlow.wait, ControlFlow.waitUntil 10000] =
      aggregatePass 0 ControlFlow.wait
        [ControlFlow.waitUntil 10000, ControlFlow.waitUntil 50000, ControlFlow.wait] ∧
    aggregatePass 0 ControlFlow.wait
        [ControlFlow.waitUntil 50000, ControlFlow.poll, ControlFlow.waitUntil 10000] =
      ControlFlow.poll := by
  have h := aggregate_most_urgent 0
    [ControlFlow.waitUntil 50000, ControlFlow.wait, ControlFlow.waitUntil 10000]
    [ControlFlow.waitUntil 10000, ControlFlow.waitUntil 50000, ControlFlow.wait]
    (by decide)
  refine ⟨?_, h.2.1, by decide⟩
  rw [h.1]
  decide

/-- Claim C8: `set_control_flow` normalizes any "wait until T" target less
than the fixed 100µs threshold from now to an immediate wake (`Poll`) — in
particular a target 50µs in the future — and passes a target at or beyond the
threshold through unchanged. -/
theorem wait_target_clamped (now t : Nat) :
    (t < now + 100 → set_control_flow now (ControlFlow.waitUntil t) = ControlFlow.poll) ∧
    (now + 100 ≤ t →
      set_control_flow now (ControlFlow.waitUntil t) = ControlFlow.waitUntil t) ∧
    set_control_flow now (ControlFlow.waitUntil (now + 50)) = ControlFlow.poll ∧
    set_control_flow now ControlFlow.poll = ControlFlow.poll ∧
    set_control_flow now ControlFlow.wait = ControlFlow.wait := by
  refine ⟨?_, ?_, ?_, rfl, rfl⟩
  · intro h
    simp [set_control_flow, h]
  · intro h
    simp [set_control_flow]
    omega
  · simp [set_control_flow]

/-- Claim C8 (witness): with `now = 0`, the target 50µs away is clamped to
`Poll` and the target 500µs away is passed through. -/
theorem wait_target_clamped_witness :
    (50 < 0 + 100 ∧ set_control_flow 0 (ControlFlow.waitUntil 50) = ControlFlow.poll) ∧
    (0 + 100 ≤ 500 ∧
      set_control_flow 0 (ControlFlow.waitUntil 500) = ControlFlow.waitUntil 500) :=
  ⟨⟨by decide, (wait_target_clamped 0 50).1 (by decide)⟩,
   ⟨by decide, (wait_target_clamped 0 500).2.1 (by decide)⟩⟩

/-- Claim C4 (counterexample): in the idle pass, with one live window that
agrees to sleep and needs no redraw, an already-established "wake as soon as
possible" (`Poll`) target is weakened to "wait indefinitely" (`Wait`) — the
guard of the idle pass only protects `WaitUntil` targets. -/
theorem idle_pass_counterexample :
    aboutToWait false ControlFlow.poll [⟨true, false⟩] = some ControlFlow.wait ∧
    ControlFlow.wait ≠ ControlFlow.poll := by decide

/-- Claim C4 (amended): in the idle pass, when every live window agrees to
sleep and none needs a redraw, the scheduler relaxes the OS wait target to
"wait indefinitely" unless the already-established target is a "wait until T"
— such a target is never weakened by the idle pass, and when some window
objects (or needs a redraw) the target is left unchanged — but an
already-established "wake as soon as possible" (`Poll`) target IS weakened to
"wait indefinitely" in that case. -/
theorem idle_pass_protects_waitUntil (t : Nat) (cf : ControlFlow)
    (ws : List IdleWindow) :
    (aboutToWait false (ControlFlow.waitUntil t) ws = some (ControlFlow.waitUntil t)) ∧
    (ws.foldl idlePassStep true = false → aboutToWait false cf ws = some cf) ∧
    (ws.foldl idlePassStep true = true → cf.isWaitUntil = false →
      aboutToWait false cf ws = some ControlFlow.wait) := by
  refine ⟨?_, ?_, ?_⟩
  · simp [aboutToWait, ControlFlow.isWaitUntil]
  · intro h
    simp [aboutToWait, h]
  · intro h hcf
    simp [aboutToWait, h, hcf]

/-- Claim C4 (witness): a sleepy window leaves a "wait until" target alone but
lets an established `Poll` be replaced by `Wait`; a window needing a redraw
leaves any target unchanged. -/
theorem idle_pass_protects_waitUntil_witness :
    aboutToWait false (ControlFlow.waitUntil 777) [⟨true, false⟩] =
      some (ControlFlow.waitUntil 777) ∧
    (([⟨true, true⟩] : List IdleWindow).foldl idlePassStep true = false ∧
      aboutToWait false ControlFlow.poll [⟨true, true⟩] = some ControlFlow.poll) ∧
    (([⟨true, false⟩] : List IdleWindow).foldl idlePassStep true = true ∧
      ControlFlow.poll.isWaitUntil = false ∧
      aboutToWait false ControlFlow.poll [⟨true, false⟩] = some ControlFlow.wait) :=
  ⟨(idle_pass_protects_waitUntil 777 ControlFlow.poll [⟨true, false⟩]).1,
   ⟨by decide,
    (idle_pass_protects_waitUntil 777 ControlFlow.poll [⟨true, true⟩]).2.1 (by decide)⟩,
   ⟨by decide, by decide,
    (idle_pass_protects_waitUntil 777 ControlFlow.poll [⟨true, false⟩]).2.2
      (by decide) (by decide)⟩⟩

/-- Looking up a window id after removing it from the registry fails. -/
theorem lookup_removeAssoc (wid : Nat) :
    ∀ reg : List (Nat × List WEvent), (removeAssoc reg wid).lookup wid = none := by
  intro reg
  induction reg with
  | nil => rfl
  | cons p t ih =>
    obtain ⟨k, v⟩ := p
    simp only [removeAssoc, List.filter_cons] at ih ⊢
    by_cases h : k = wid
    · rw [if_neg (by simp [h])]
      exact ih
    · rw [if_pos (by simp [h])]
      have hbeq : (wid == k) = false := beq_eq_false_iff_ne.mpr (fun hw => h hw.symm)
      simp only [List.lookup, hbeq]
      exact ih

/-- Claim C9: processing a destruction event for a tracked window id forwards
the event to that window first (the forwarding trace of the step is exactly
that delivery) and then removes the id from the registry, so that afterwards
the id is no longer tracked and dispatching any further event to it fails
loudly with the unwrap panic instead of being silently routed. -/
theorem destroy_removes_window (reg : List (Nat × List WEvent)) (flag : Bool)
    (wid : Nat) (log : List WEvent) (h : reg.lookup wid = some log) :
    ∃ reg', processWindowEvent reg flag wid WEvent.destroyed =
        Except.ok (reg', flag, [(wid, WEvent.destroyed)]) ∧
      reg'.lookup wid = none ∧
      ∀ (ev : WEvent) (f : Bool), processWindowEvent reg' f wid ev =
        Except.error "called Option::unwrap on a None value".data := by
  refine ⟨removeAssoc (updateAssoc reg wid (log ++ [WEvent.destroyed])) wid, ?_, ?_, ?_⟩
  · simp [processWindowEvent, h]
  · exact lookup_removeAssoc wid _
  · intro ev f
    simp [processWindowEvent, lookup_removeAssoc wid _]

/-- Claim C9 (witness): destroying tracked window 1 empties the registry and
makes any further dispatch to id 1 fail loudly. -/
theorem destroy_removes_window_witness :
    (([(1, [])] : List (Nat × List WEvent)).lookup 1 = some []) ∧
    ∃ reg', processWindowEvent [(1, [])] false 1 WEvent.destroyed =
        Except.ok (reg', false, [(1, WEvent.destroyed)]) ∧
      reg'.lookup 1 = none ∧
      ∀ (ev : WEvent) (f : Bool), processWindowEvent reg' f 1 ev =
        Except.error "called Option::unwrap on a None value".data :=
  ⟨by decide, destroy_removes_window [(1, [])] false 1 [] (by decide)⟩

/-- Claim C5: materialization is lazy and idempotent — resolving a `Ready`
resource returns the existing handle with no decoder invocation, and
resolving a `LoadRequested path` resource (with a succeeding decoder) invokes
the decoder exactly once, transitions to `Ready`, and a second resolve of the
resulting resource returns the same handle with no further decoder
invocation. -/
theorem texture_lazy_idempotent {I H E : Type} (decode : Chars → Except E I)
    (upload : I → H) :
    (∀ h : H, Picture.texture decode upload (Picture.ready h) =
      (TexResult.ok h, Picture.ready h, 0)) ∧
    (∀ (path : Chars) (img : I), decode path = Except.ok img →
      Picture.texture decode upload (Picture.loadRequested path) =
        (TexResult.ok (upload img), Picture.ready (upload img), 1) ∧
      Picture.texture decode upload (Picture.ready (upload img)) =
        (TexResult.ok (upload img), Picture.ready (upload img), 0)) := by
  constructor
  · intro h
    rfl
  · intro path img hdec
    constructor
    · simp [Picture.texture, upload_to_texture, hdec]
    · rfl

/-- Claim C5 (witness): with a decoder returning image 7 and an uploader
adding one, the pending resource decodes once to handle 8 and a second
resolve returns handle 8 again with no decode. -/
theorem texture_lazy_idempotent_witness :
    ((fun _ : Chars => (Except.ok 7 : Except Nat Nat)) "a.png".data = Except.ok 7) ∧
    Picture.texture (fun _ : Chars => (Except.ok 7 : Except Nat Nat))
        (fun i => i + 1) (Picture.loadRequested "a.png".data) =
      (TexResult.ok 8, Picture.ready 8, 1) ∧
    Picture.texture (fun _ : Chars => (Except.ok 7 : Except Nat Nat))
        (fun i => i + 1) (Picture.ready 8) =
      (TexResult.ok 8, Picture.ready 8, 0) := by
  have h := (texture_lazy_idempotent (fun _ : Chars => (Except.ok 7 : Except Nat Nat))
    (fun i => i + 1)).2 "a.png".data 7 rfl
  exact ⟨rfl, h.1, h.2⟩

/-- Claim C6: when the decoder fails on a `LoadRequested path` resource,
`Picture::texture` reports the decode error to its caller (no panic, never a
stale `Ready` state), `get_texture` clears the widget's `image_texture` to
`None` and returns no texture, and a subsequent draw attempt on the cleared
widget produces no texture and no further decoder invocation. -/
theorem decode_failure_clears {I H E : Type} (decode : Chars → Except E I)
    (upload : I → H) (path : Chars) (e : E) (hdec : decode path = Except.error e) :
    Picture.texture decode upload (Picture.loadRequested path) =
      (TexResult.err e, Picture.loadRequested "".data, 1) ∧
    get_texture decode upload (some (Picture.loadRequested path)) =
      (GetTexResult.ok none, none, 1) ∧
    get_texture decode upload (none : Option (Picture H)) =
      (GetTexResult.ok none, none, 0) := by
  refine ⟨?_, ?_, rfl⟩
  · simp [Picture.texture, upload_to_texture, hdec]
  · simp [get_texture, Picture.texture, upload_to_texture, hdec]

/-- Claim C6 (witness): a decoder that always fails with error 0 leaves the
widget with no picture and no texture, and the next draw attempt does not
decode. -/
theorem decode_failure_clears_witness :
    ((fun _ : Chars => (Except.error 0 : Except Nat Nat)) "a.png".data = Except.error 0) ∧
    Picture.texture (fun _ : Chars => (Except.error 0 : Except Nat Nat))
        (fun i : Nat => i) (Picture.loadRequested "a.png".data) =
      (TexResult.err 0, Picture.loadRequested "".data, 1) ∧
    get_texture (fun _ : Chars => (Except.error 0 : Except Nat Nat))
        (fun i : Nat => i) (some (Picture.loadRequested "a.png".data)) =
      (GetTexResult.ok none, none, 1) ∧
    get_texture (fun _ : Chars => (Except.error 0 : Except Nat Nat))
        (fun i : Nat => i) (none : Option (Picture Nat)) =
      (GetTexResult.ok none, none, 0) := by
  have h := decode_failure_clears (fun _ : Chars => (Except.error 0 : Except Nat Nat))
    (fun i : Nat => i) "a.png".data 0 rfl
  exact ⟨rfl, h.1, h.2.1, h.2.2⟩

end Emulsion
